import Mathlib

/-!
Verification development for the xmlui-test-server repository
(src/xmlui-test-server.go): a small HTTP gateway that serves static
files, executes SQL posted to `/query` against a single SQLite handle,
reverse-proxies `/proxy/<host>/<path>`, and optionally maps declared
API endpoints (path templates + methods + parameterized SQL) to queries.

Shallow embedding conventions:
- JSON documents are the inductive `Json`; a request body is an
  `Except String Json`, the outcome of Go's JSON parser (the parser
  itself is not modelled character by character; an `.error e` value
  stands for a body that is not valid JSON, `e` being the parser's
  message).
- The database handle is an oracle `DB : String → List Json → Except
  String QueryResult`; the driver's raw column values are `DBValue`
  (`[]byte` columns are `.blob`).
- HTTP responses are `Response` records; `http.Error(w, msg, code)`
  writes `msg ++ "\n"` with the given status, `http.NotFound` writes
  `"404 page not found\n"` with status 404.
- Handlers additionally return the list of SQL statements they actually
  ran (`List SQLCall`), so "executes no SQL" is expressible.
-/

namespace SqliteServer

/-- JSON values (numbers restricted to integers, which is all the
claims under study ever inspect). -/
inductive Json where
  | null : Json
  | bool (b : Bool) : Json
  | num (n : Int) : Json
  | str (s : String) : Json
  | arr (xs : List Json) : Json
  | obj (fields : List (String × Json)) : Json

/-- Raw column values produced by the sqlite3 driver before
`executeQuery`'s conversion; a `[]byte` column is `.blob`. -/
inductive DBValue where
  | null : DBValue
  | int (i : Int) : DBValue
  | text (s : String) : DBValue
  | blob (bs : List Nat) : DBValue
deriving DecidableEq

/-- Result set of one query: column names plus rows of raw values. -/
structure QueryResult where
  columns : List String
  rows : List (List DBValue)

/-- The database handle, as an oracle from (sql, params) to either an
error or a result set; `db.Query` in the source. -/
def DB : Type := String → List Json → Except String QueryResult

/-- One SQL statement actually submitted to the database. -/
def SQLCall : Type := String × List Json

/-- Model of Go's `string(b)` on a `[]byte` value: each byte becomes
the character with that code point. -/
def bytesToString (bs : List Nat) : String :=
  ⟨bs.map Char.ofNat⟩

/-- The per-column conversion inside `executeQuery`'s row loop
(src/xmlui-test-server.go lines 334-344): a `[]byte` value becomes a
string, every other value is kept as is, and the kept values render as
the corresponding JSON scalars. -/
def convertValue : DBValue → Json
  | .null => .null
  | .int i => .num i
  | .text s => .str s
  | .blob bs => .str (bytesToString bs)

/-- Embedding of `executeQuery` (lines 300-366): run the query through the handle,
then turn each row into a column-name-keyed record, converting byte
arrays to strings. -/
def executeQuery (db : DB) (sqlQuery : String) (params : List Json) :
    Except String (List (List (String × Json))) :=
  match db sqlQuery params with
  | .error e => .error e
  | .ok res => .ok (res.rows.map (fun r => res.columns.zip (r.map convertValue)))

/-- How `sendJSONResponse` marshals the `[]map[string]interface` result
slice of `executeQuery`: Go's `encoding/json` renders a nil slice as
JSON `null`, and the slice is nil exactly when the row loop appended
nothing, so an empty result set marshals to `null`, not to `[]`.
(Go marshals each row map with its keys sorted; we keep column order,
which is irrelevant here because a JSON object is unordered.) -/
def goMarshalRows (rows : List (List (String × Json))) : Json :=
  if rows.isEmpty then .null else .arr (rows.map Json.obj)

/-- Lookup in an association list modelling a Go map built by repeated
assignment: the last binding for a key wins. -/
def mlookup {α : Type} (l : List (String × α)) (k : String) : Option α :=
  l.foldl (fun acc p => if p.1 = k then some p.2 else acc) none

/-- The `QueryRequest` struct (lines 26-29). -/
structure QueryRequest where
  sql : String
  params : List Json

/-- Decoding a parsed JSON document into `QueryRequest`, following
`encoding/json` unmarshalling of the struct: a JSON object fills the
two fields — an absent field keeps its zero value, a JSON `null` value
for a field is a no-op that also leaves the zero value, and a value of
any other wrong type is an error — a top-level JSON `null` leaves the
whole zero struct, and any other document is a type error. -/
def decodeQueryRequest : Json → Except String QueryRequest
  | .obj fields =>
    let withSQL : String → Except String QueryRequest := fun s =>
      match mlookup fields "params" with
      | some (.arr xs) => .ok ⟨s, xs⟩
      | some .null => .ok ⟨s, []⟩
      | none => .ok ⟨s, []⟩
      | some _ => .error "json: cannot unmarshal value into field params of type slice"
    match mlookup fields "sql" with
    | some (.str s) => withSQL s
    | some .null => withSQL ""
    | none => withSQL ""
    | some _ => .error "json: cannot unmarshal value into field sql of type string"
  | .null => .ok ⟨"", []⟩
  | _ => .error "json: cannot unmarshal value into value of type QueryRequest"

/-- Response bodies: a marshalled JSON document, plain text, a file
handed to `http.ServeFile`, or a request forwarded by the reverse
proxy (whose actual body and status come from the upstream host). -/
inductive Body where
  | json (j : Json) : Body
  | text (s : String) : Body
  | file (path : String) : Body
  | forwarded (host : String) (sub : String) (query : String) : Body

/-- An HTTP response as observed by the client. -/
structure Response where
  status : Nat
  headers : List (String × String)
  body : Body

/-- Embedding of `sendErrorResponse` / `http.Error`: plain-text body `message ++ "\n"`
with the given status (lines 400-403). -/
def errorResponse (message : String) (statusCode : Nat) : Response :=
  { status := statusCode
    headers := [("Content-Type", "text/plain; charset=utf-8")]
    body := .text (message ++ "\n") }

/-- Embedding of `http.NotFound`: status 404 with the fixed generic body. -/
def notFoundResponse : Response :=
  errorResponse "404 page not found" 404

/-- Embedding of `sendJSONResponse` (lines 371-397): marshalled JSON body with the
given status. -/
def jsonResponse (j : Json) (statusCode : Nat) : Response :=
  { status := statusCode
    headers := [("Content-Type", "application/json")]
    body := .json j }

/-- Text of the error `os.Stat` returns for a missing file (a Go
`*fs.PathError`); this is the underlying error of the static handler's
missing-file branch, and it is never written to the response. -/
def statErrorText (path : String) : String :=
  "stat " ++ path ++ ": no such file or directory"

/-- An incoming HTTP request as the handlers consume it: method, URL
path (decoded), first-value-per-key URL query parameters, the JSON
parse outcome of the body, and the raw query string. -/
structure Request where
  method : String
  path : String
  queryParams : List (String × String)
  body : Except String Json
  rawQuery : String

/-- Embedding of `handleQuery` (lines 481-517): POST only; decode the body into
`QueryRequest` (a body that is not valid JSON, or has ill-typed
fields, is a 400 carrying the decoder's error text); run the SQL (an
execution error is a 500 carrying the error text); otherwise 200 with
the marshalled rows. The second component records the SQL statements
submitted to the database. -/
def handleQuery (db : DB) (req : Request) : Response × List SQLCall :=
  if req.method ≠ "POST" then
    (errorResponse "Only POST method is allowed" 405, [])
  else
    match req.body with
    | .error e => (errorResponse e 400, [])
    | .ok j =>
      match decodeQueryRequest j with
      | .error e => (errorResponse e 400, [])
      | .ok q =>
        match executeQuery db q.sql q.params with
        | .error e => (errorResponse e 500, [(q.sql, q.params)])
        | .ok rows => (jsonResponse (goMarshalRows rows) 200, [(q.sql, q.params)])

/-!
### Path templates

`pathToRegexp` (lines 156-166) turns a template such as `/clients/:id`
into the anchored regular expression `^/clients/([^/]+)$`: the template
is `QuoteMeta`-escaped and every leftmost match of `:([^/]+)` — a colon
followed by at least one non-slash character, greedily — is replaced by
the capturing group `([^/]+)`.  Since neither `:` nor `/` is escaped by
`QuoteMeta` and `[^/]+` cannot cross a `/`, the replacement acts
segment by segment on the `/`-split template: in a segment whose first
colon is followed by at least one further character, everything from
that colon to the end of the segment is swallowed by one greedy
capture group and the part before the colon stays literal (`:id`
compiles to a bare group; the mid-segment colon of `a:b` compiles to
`a([^/]+)`); a segment whose only colon is final, or that has no
colon, stays literal.  Because the produced pattern keeps the `/`
separators literal and a group can never match `/`, a path matches the
anchored pattern exactly when its `/`-split segment list aligns
segment by segment with the compiled template (a literal segment by
equality; a prefix-plus-group segment by carrying the literal prefix
followed by a non-empty slash-free remainder, which the group
captures); the capture list is the list of group-matched remainders,
in order.  The embedding below works with that segment alignment;
`reMatchStr`/`extractPathParamsStr` wrap it for `String` paths via the
`/`-split. -/

/-- Go's `strings.HasPrefix` (all string primitives in this development
are defined over the underlying character lists, so that every
definition evaluates by kernel reduction). -/
def hasPre (s pre : String) : Bool :=
  pre.data.isPrefixOf s.data

/-- Splitting a character list on a separator character; the Go
`strings.Split` semantics: splitting the empty string yields one empty
part, every separator opens a new part. -/
def splitChars (cs : List Char) (sep : Char) : List (List Char) :=
  match cs with
  | [] => [[]]
  | c :: rest =>
    if c = sep then [] :: splitChars rest sep
    else
      match splitChars rest sep with
      | h :: t => (c :: h) :: t
      | [] => [[c]]

/-- Go's `strings.Split(s, sep)` for a one-character separator (which is
also what `String.splitOn "/"` computes). -/
def splitOnChar (s : String) (sep : Char) : List String :=
  (splitChars s.data sep).map (fun cs => ⟨cs⟩)

/-- Does the string end in a slash (`strings.HasSuffix(s, "/")`). -/
def lastIsSlash (s : String) : Bool :=
  match s.data.getLast? with
  | some c => c = '/'
  | none => false

/-- One compiled segment of a template's regular expression: a literal,
or a literal prefix followed by the capturing group `([^/]+)` (the
prefix is empty for a whole-segment `:name` parameter, and non-empty
for a mid-segment colon such as in `a:b`, which Go's replacement
compiles to `a([^/]+)`). -/
inductive RSeg where
  | lit (s : String) : RSeg
  | preGroup (pre : String) : RSeg
deriving DecidableEq

/-- Splitting a character list at its first colon: the part before it
and the part after it, or `none` when no colon occurs. -/
def colonSplit (cs : List Char) : Option (List Char × List Char) :=
  match cs with
  | [] => none
  | c :: rest =>
    if c = ':' then some ([], rest)
    else (colonSplit rest).map (fun pr => (c :: pr.1, pr.2))

/-- Segment-level compilation of one template segment, mirroring the
leftmost-first replacement of `:([^/]+)` in the QuoteMeta-escaped
template: at the first colon of the segment that is followed by at
least one character, everything from the colon on is swallowed by one
greedy capture group and the part before the colon stays literal; a
segment whose only colon is final, or that has no colon, stays
literal. -/
def compileSeg (s : String) : RSeg :=
  match colonSplit s.data with
  | some (pre, aft) => if aft = [] then .lit s else .preGroup ⟨pre⟩
  | none => .lit s

/-- The function `pathToRegexp`, at segment level: compile each `/`-split segment of
the template. -/
def pathToRegexp (tsegs : List String) : List RSeg :=
  tsegs.map compileSeg

/-- Matching a compiled pattern against the `/`-split segments of a
request path, returning the list of group captures on success (the
semantics of the anchored regex `pathToRegexp` produces, see above): a
literal matches itself, and a prefix-plus-group segment matches a
slash-free segment that strictly extends the literal prefix, the group
capturing the non-empty remainder. -/
def capturesAux : List RSeg → List String → Option (List String)
  | [], [] => some []
  | .lit l :: rs, p :: ps => if p = l then capturesAux rs ps else none
  | .preGroup pre :: rs, p :: ps =>
    if pre.data.isPrefixOf p.data ∧ pre.data.length < p.data.length ∧ ¬ p.data.contains '/'
    then (capturesAux rs ps).map ((⟨p.data.drop pre.data.length⟩ : String) :: ·)
    else none
  | _, _ => none

/-- The parameter names `extractPathParams` (lines 170-194) reads off a
template: the `/`-split parts that start with `:`, colon removed, in
order. -/
def paramNames (tsegs : List String) : List String :=
  tsegs.filterMap (fun s => if hasPre s ":" then some (⟨s.data.drop 1⟩ : String) else none)

/-- The function `extractPathParams` at segment level: on a match, pair the
template's parameter names with the capture groups, in order (the
source writes `params[name] = matches[i+1]` for each name with an
available capture, i.e. a truncating zip); no match gives no
bindings. -/
def extractPathParams (psegs tsegs : List String) : List (String × String) :=
  match capturesAux (pathToRegexp tsegs) psegs with
  | some vs => (paramNames tsegs).zip vs
  | none => []

/-- Matching (`re.MatchString`) for a compiled template against a request path,
via the segment alignment semantics. -/
def reMatchStr (tpl path : String) : Bool :=
  (capturesAux (pathToRegexp (splitOnChar tpl '/')) (splitOnChar path '/')).isSome

/-- The function `extractPathParams` for `String` paths (split on `/`). -/
def extractPathParamsStr (path tpl : String) : List (String × String) :=
  extractPathParams (splitOnChar path '/') (splitOnChar tpl '/')

/-!
### API description and endpoint matching -/

/-- The struct `MethodDefinition` (lines 45-49); the description field plays no
role in the semantics. -/
structure MethodDefinition where
  sql : String
  params : List String
deriving DecidableEq

/-- The struct `EndpointDefinition` (lines 40-43): the method table is a Go map;
we model it as an association list with last-binding-wins lookup. -/
structure EndpointDefinition where
  path : String
  methods : List (String × MethodDefinition)
deriving DecidableEq

/-- The struct `APIDescription` (lines 32-38), restricted to the fields the
handlers read. -/
structure APIDescription where
  basePath : String
  endpoints : List EndpointDefinition
deriving DecidableEq

/-- Go's `strings.TrimPrefix`: drop `pre` from the front of `s` when it
is a prefix, otherwise return `s` unchanged. -/
def trimLeading (s pre : String) : String :=
  if pre.data.isPrefixOf s.data then ⟨s.data.drop pre.data.length⟩ else s

/-- Go's `strings.TrimSuffix(s, "/")`: drop one trailing slash if
present. -/
def trimSlashEnd (s : String) : String :=
  if lastIsSlash s then ⟨s.data.dropLast⟩ else s

/-- The base-path stripping step of `findMatchingEndpoint` (lines
202-209): when a non-empty base path is a prefix of the request path,
remove it, restoring `/` if the remainder is empty. -/
def stripBase (api : APIDescription) (p : String) : String :=
  if api.basePath ≠ "" ∧ api.basePath.data.isPrefixOf p.data then
    let q := trimLeading p api.basePath
    if q = "" then "/" else q
  else p

/-- Embedding of `findMatchingEndpoint` (lines 197-253): strip the base path,
normalize by dropping one trailing slash (restoring `/` if that leaves
nothing), try every endpoint in declaration order against the
normalized path, and only if none matches — and the normalization
changed the path — try them again against the unnormalized path; the
matching endpoint is returned together with its extracted path
parameters.  (The precompiled-regexp cache always holds every declared
template, so the source's defensive `continue` on a missing cache entry
is unreachable and not modelled.) -/
def findMatchingEndpoint (api : APIDescription) (requestPath : String) :
    Option (EndpointDefinition × List (String × String)) :=
  let p := stripBase api requestPath
  let normalized0 := trimSlashEnd p
  let normalized := if normalized0 = "" then "/" else normalized0
  match api.endpoints.find? (fun ep => reMatchStr ep.path normalized) with
  | some ep => some (ep, extractPathParamsStr normalized ep.path)
  | none =>
    if normalized ≠ p then
      match api.endpoints.find? (fun ep => reMatchStr ep.path p) with
      | some ep => some (ep, extractPathParamsStr p ep.path)
      | none => none
    else none

/-!
### Parameter binding and the API handler -/

/-- First-occurrence replacement on character lists (the pattern is
never empty at the call sites). -/
def replaceFirstL (s pat repl : List Char) : List Char :=
  match s with
  | [] => []
  | c :: rest =>
    if pat.isPrefixOf (c :: rest) then repl ++ (c :: rest).drop pat.length
    else c :: replaceFirstL rest pat repl

/-- Go's `strings.Replace(s, pat, repl, 1)`: replace the first
occurrence of `pat`, if any. -/
def replaceFirst (s pat repl : String) : String :=
  ⟨replaceFirstL s.data pat.data repl.data⟩

/-- The parameter-binding loop of `handleAPI` (lines 446-467): for each
declared parameter name, in order, look it up first among the path
parameters, then the URL query parameters, then the JSON body
parameters, falling back to SQL NULL (Go `nil`), and replace the first
occurrence of `:name` in the SQL text with `?`. -/
def bindParams (declared : List String) (pathParams queryParams : List (String × String))
    (bodyParams : List (String × Json)) (sqlQuery : String) : List Json × String :=
  match declared with
  | [] => ([], sqlQuery)
  | n :: rest =>
    let v : Json :=
      match mlookup pathParams n with
      | some s => .str s
      | none =>
        match mlookup queryParams n with
        | some s => .str s
        | none =>
          match mlookup bodyParams n with
          | some j => j
          | none => .null
    let sqlQuery' := replaceFirst sqlQuery (":" ++ n) "?"
    let (vs, sqlFinal) := bindParams rest pathParams queryParams bodyParams sqlQuery'
    (v :: vs, sqlFinal)

/-- Embedding of `handleAPI` (lines 408-478): 500 if no API description is loaded;
404 (`http.NotFound`) if no endpoint matches the path; 405 if the
endpoint does not declare the request method; otherwise bind the
declared parameters (body parameters come from the request body only
when it parses as a JSON object — `extractBodyParams`' error is logged
and otherwise ignored), run the query, and answer 500 with a prefixed
error text or 200 with the marshalled rows. -/
def handleAPI (apiDesc : Option APIDescription) (db : DB) (req : Request) :
    Response × List SQLCall :=
  match apiDesc with
  | none => (errorResponse "API description not loaded" 500, [])
  | some api =>
    match findMatchingEndpoint api req.path with
    | none => (notFoundResponse, [])
    | some (ep, pathParams) =>
      match mlookup ep.methods req.method with
      | none => (errorResponse "Method not allowed" 405, [])
      | some md =>
        let bodyParams : List (String × Json) :=
          match req.body with
          | .ok (.obj fields) => fields
          | _ => []
        let bound := bindParams md.params pathParams req.queryParams bodyParams md.sql
        match executeQuery db bound.2 bound.1 with
        | .error e => (errorResponse ("Database error: " ++ e) 500, [(bound.2, bound.1)])
        | .ok rows => (jsonResponse (goMarshalRows rows) 200, [(bound.2, bound.1)])

/-!
### Reverse proxy -/

/-- Go's `strings.SplitN(s, sep, 2)` on character lists: the part
before the first separator, and — when a separator exists — the part
after it. -/
def splitN2 (s : List Char) (sep : Char) : List Char × Option (List Char) :=
  match s with
  | [] => ([], none)
  | c :: cs =>
    if c = sep then ([], some cs)
    else
      let r := splitN2 cs sep
      (c :: r.1, r.2)

/-- The target computation of `handleProxy` (lines 520-559): trim the
`/proxy/` prefix, split the remainder at its first `/` into the host
part and the sub-path (which becomes `/` when there is no remainder),
and keep the incoming raw query string.  Returns (host, sub-path,
query); the forwarded request goes to `https://host` with that path
and query (the bare target has no path and no query of its own, so the
reverse proxy's director keeps both unchanged).  `url.Parse` failures
on pathological host strings are outside this model. -/
def proxyTarget (path : List Char) (rawQuery : String) :
    List Char × List Char × String :=
  let targetPath := if "/proxy/".data.isPrefixOf path then path.drop "/proxy/".data.length else path
  let parts := splitN2 targetPath '/'
  let subPath : List Char :=
    match parts.2 with
    | some r => '/' :: r
    | none => ['/']
  (parts.1, subPath, rawQuery)

/-- Embedding of `handleProxy` as a request handler: the response observed locally
is whatever the upstream host answers; we record only the forwarding
target (its status is upstream-determined and never inspected by a
theorem below, 0 is a placeholder). -/
def handleProxyR (req : Request) : Response :=
  let t := proxyTarget req.path.data req.rawQuery
  { status := 0
    headers := []
    body := .forwarded ⟨t.1⟩ ⟨t.2.1⟩ t.2.2 }

/-!
### Static files, router, middleware -/

/-- The root/static handler (lines 668-685) over an abstract file
system `fs` (does a file exist at this relative path?): the path `/`
is always handed to `http.ServeFile` as `index.html`; any other path
is served from `"." ++ path` when `os.Stat` finds it, and answered
with `http.NotFound` when it does not exist. -/
def staticHandle (fs : String → Bool) (path : String) : Response :=
  if path = "/" then
    { status := 200, headers := [], body := .file "index.html" }
  else if fs ("." ++ path) = false then notFoundResponse
  else { status := 200, headers := [], body := .file ("." ++ path) }

/-- The pattern `handleAPI` is registered under (lines 653-659): the
base path with a trailing slash ensured. -/
def apiPattern (api : APIDescription) : String :=
  if lastIsSlash api.basePath then api.basePath else api.basePath ++ "/"

/-- Go `http.ServeMux` pattern matching: a pattern ending in `/` matches
every path it prefixes, any other pattern matches exactly. -/
def patternMatches (pat path : String) : Bool :=
  if lastIsSlash pat then pat.data.isPrefixOf path.data else path = pat

/-- Go `http.ServeMux` dispatch: among the matching registered patterns,
the longest wins. -/
def bestPattern (pats : List String) (path : String) : Option String :=
  (pats.filter (fun p => patternMatches p path)).foldl
    (fun acc p =>
      match acc with
      | none => some p
      | some q => if q.data.length < p.data.length then some p else acc)
    none

/-- The four route families of `main` (lines 652-685). -/
inductive Route where
  | api : Route
  | pxy : Route
  | query : Route
  | staticFiles : Route
deriving DecidableEq

/-- Which handler the mux sends a path to: the API pattern (when an
API description is loaded), `/proxy/`, the exact `/query`, or the
catch-all `/`. -/
def muxRoute (apiDesc : Option APIDescription) (path : String) : Route :=
  let pats :=
    (match apiDesc with
     | some api => [apiPattern api]
     | none => []) ++ ["/proxy/", "/query", "/"]
  match bestPattern pats path with
  | some p =>
    if apiDesc.map apiPattern = some p then .api
    else if p = "/proxy/" then .pxy
    else if p = "/query" then .query
    else .staticFiles
  | none => .staticFiles

/-- The registered mux as one handler. -/
def muxHandle (apiDesc : Option APIDescription) (db : DB) (fs : String → Bool)
    (req : Request) : Response × List SQLCall :=
  match muxRoute apiDesc req.path with
  | .api => handleAPI apiDesc db req
  | .pxy => (handleProxyR req, [])
  | .query => handleQuery db req
  | .staticFiles => (staticHandle fs req.path, [])

/-- The three headers `corsMiddleware` sets on every response (lines
639-641). -/
def corsHeaders : List (String × String) :=
  [("Access-Control-Allow-Origin", "*"),
   ("Access-Control-Allow-Methods", "GET, POST, PUT, DELETE, OPTIONS"),
   ("Access-Control-Allow-Headers", "*")]

/-- Embedding of `corsMiddleware` (lines 637-650): set the CORS headers, answer any
OPTIONS request directly with 200 and an empty body, and otherwise
delegate to the wrapped handler (whose own headers come on top of the
already-set CORS headers). -/
def corsMiddleware (next : Request → Response × List SQLCall) (req : Request) :
    Response × List SQLCall :=
  if req.method = "OPTIONS" then
    ({ status := 200, headers := corsHeaders, body := .text "" }, [])
  else
    let r := next req
    ({ r.1 with headers := corsHeaders ++ r.1.headers }, r.2)

/-- The complete server: the CORS middleware wrapping the mux, as
passed to `http.ListenAndServe` (line 697). -/
def serverHandle (apiDesc : Option APIDescription) (db : DB) (fs : String → Bool)
    (req : Request) : Response × List SQLCall :=
  corsMiddleware (muxHandle apiDesc db fs) req

/-!
### Connection pool configuration -/

/-- The connection-pool limits of a `database/sql` handle: 0 means
unlimited open connections; the defaults after `sql.Open` are
unlimited open and 2 idle. -/
structure DBConn where
  maxOpenConns : Nat
  maxIdleConns : Nat
deriving DecidableEq

/-- Go `sql.Open` default pool configuration. -/
def sqlOpenConn : DBConn :=
  { maxOpenConns := 0, maxIdleConns := 2 }

/-- Embedding of `db.SetMaxOpenConns`. -/
def setMaxOpenConns (db : DBConn) (n : Nat) : DBConn :=
  { db with maxOpenConns := n }

/-- Embedding of `db.SetMaxIdleConns` (Go additionally caps the idle limit at the
open limit when the latter is positive). -/
def setMaxIdleConns (db : DBConn) (n : Nat) : DBConn :=
  let m := if 0 < db.maxOpenConns ∧ db.maxOpenConns < n then db.maxOpenConns else n
  { db with maxIdleConns := m }

/-- The pool configuration `NewServer` leaves on the shared handle
(lines 60-68): open, then `SetMaxOpenConns 1`, then
`SetMaxIdleConns 1`. -/
def newServerConn : DBConn :=
  setMaxIdleConns (setMaxOpenConns sqlOpenConn 1) 1

/-!
### Claim-side definitions

The following definitions restate, in the words of the specification
claims, behaviour whose source-side transcriptions are above; the
theorems below compare the two. -/

/-- Parameter resolution as claim C8 words it: the value bound to a
declared name comes from the path parameters first, then the URL query
parameters, then the JSON body parameters, and is SQL NULL when the
name appears in none of the three sources. -/
def resolveParam (pathParams queryParams : List (String × String))
    (bodyParams : List (String × Json)) (n : String) : Json :=
  (((mlookup pathParams n).map Json.str)
    <|> ((mlookup queryParams n).map Json.str)
    <|> mlookup bodyParams n).getD Json.null

/-- The SQL text after binding, as claim C8 words it: one
first-occurrence replacement of `:name` by `?` per declared parameter,
in declared order. -/
def declaredOrderSQL (declared : List String) (sqlQuery : String) : String :=
  declared.foldl (fun s n => replaceFirst s (":" ++ n) "?") sqlQuery

/-- Substituting an assignment of values into a path template, as
claim C6 words it: every `:name` segment becomes the assigned value,
other segments are kept. -/
def substTemplate (tsegs : List String) (σ : String → String) : List String :=
  tsegs.map (fun s => if hasPre s ":" then σ (⟨s.data.drop 1⟩ : String) else s)

/-- Removal of all trailing slashes — the normalization step as claim
C10 words it ("removes trailing slashes"). -/
def trimAllSlashEnd (s : String) : String :=
  ⟨(s.data.reverse.dropWhile (fun c => c = '/')).reverse⟩

/-- Endpoint matching as claim C10 describes it, parameterized by the
normalization step: strip the base path (restoring `/` when empty),
normalize, try the endpoints in declaration order against the
normalized path, and only when none matches try them, again in order,
against the unnormalized path; `claimFindEndpoint trimAllSlashEnd` is
the claim as stated, `claimFindEndpoint trimSlashEnd` the claim with
the normalization the code actually performs. -/
def claimFindEndpoint (norm : String → String) (api : APIDescription)
    (requestPath : String) : Option (EndpointDefinition × List (String × String)) :=
  let p := stripBase api requestPath
  let normalized0 := norm p
  let normalized := if normalized0 = "" then "/" else normalized0
  match api.endpoints.find? (fun ep => reMatchStr ep.path normalized) with
  | some ep => some (ep, extractPathParamsStr normalized ep.path)
  | none =>
    match api.endpoints.find? (fun ep => reMatchStr ep.path p) with
    | some ep => some (ep, extractPathParamsStr p ep.path)
    | none => none

/-!
### Concrete fixtures used by counterexamples and witnesses -/

/-- A database in which every statement succeeds with one `name`
column and no rows. -/
def dbEmpty : DB := fun _ _ => .ok ⟨["a"], []⟩

/-- A database in which every statement succeeds with one row whose
single column is the byte array `[104, 105]` (the bytes of "hi"). -/
def dbBlob : DB := fun _ _ => .ok ⟨["name"], [[.blob [104, 105]]]⟩

/-- A database in which every statement fails. -/
def dbFail : DB := fun _ _ => .error "no such table: t"

/-- A file system with no files. -/
def fsEmpty : String → Bool := fun _ => false

/-- A well-formed `/query` body selecting from `t`. -/
def queryBody : Json :=
  .obj [("sql", .str "SELECT a FROM t"), ("params", .arr [])]

/-- A well-formed `/query` body selecting from `people`. -/
def queryBodyPeople : Json :=
  .obj [("sql", .str "SELECT name FROM people"), ("params", .arr [])]

/-- An API description with base path `/api` and one GET-only
endpoint. -/
def apiA : APIDescription :=
  ⟨"/api", [⟨"/things", [("GET", ⟨"SELECT * FROM things", []⟩)]⟩]⟩

/-- A handler that ignores its request. -/
def next0 : Request → Response × List SQLCall := fun _ => (notFoundResponse, [])

/-!
## Theorems -/

/-- C1 (counterexample): a POST to `/query` whose body is valid JSON of
the required form and whose SQL executes without error — but returns
zero rows — is answered with status 200 and body `null`, which is not
a JSON array: the result slice is still nil when no row was appended,
and Go marshals a nil slice as `null`. -/
theorem query_empty_result_not_array :
    decodeQueryRequest queryBody = .ok ⟨"SELECT a FROM t", []⟩ ∧
    dbEmpty "SELECT a FROM t" [] = .ok ⟨["a"], []⟩ ∧
    (handleQuery dbEmpty ⟨"POST", "/query", [], .ok queryBody, ""⟩).1.status = 200 ∧
    (handleQuery dbEmpty ⟨"POST", "/query", [], .ok queryBody, ""⟩).1.body = .json .null ∧
    (handleQuery dbEmpty ⟨"POST", "/query", [], .ok queryBody, ""⟩).1.body ≠ .json (.arr []) :=
  ⟨rfl, rfl, rfl, rfl, fun h => Json.noConfusion (Body.json.inj h)⟩

/-- C1 (amended): a POST to `/query` whose body decodes to a
`QueryRequest` and whose SQL executes without error is answered with
status 200, and the body is the marshalled result set: one object per
row, keyed by column name, each value converted by `convertValue`
(byte arrays become strings) — rendered as a JSON array when at least
one row came back and as JSON `null` when the result set is empty. -/
theorem query_success_response (db : DB) (j : Json) (q : QueryRequest)
    (res : QueryResult) (path : String) (qs : List (String × String)) (raw : String)
    (hdec : decodeQueryRequest j = .ok q)
    (hdb : db q.sql q.params = .ok res) :
    (handleQuery db ⟨"POST", path, qs, .ok j, raw⟩).1.status = 200 ∧
    (handleQuery db ⟨"POST", path, qs, .ok j, raw⟩).1.body =
      .json (goMarshalRows (res.rows.map (fun r => res.columns.zip (r.map convertValue)))) := by
  simp [handleQuery, hdec, executeQuery, hdb, jsonResponse]

/-- Witness for C1 (amended): a concrete request against a database
returning one row with a byte-array column; the response is 200 with a
one-object JSON array, the bytes decoded to the string `hi`. -/
theorem query_success_response_witness :
    (handleQuery dbBlob ⟨"POST", "/query", [], .ok queryBodyPeople, ""⟩).1.status = 200 ∧
    (handleQuery dbBlob ⟨"POST", "/query", [], .ok queryBodyPeople, ""⟩).1.body =
      .json (.arr [.obj [("name", .str "hi")]]) := by
  have h := query_success_response dbBlob queryBodyPeople ⟨"SELECT name FROM people", []⟩
    ⟨["name"], [[.blob [104, 105]]]⟩ "/query" [] "" rfl rfl
  exact ⟨h.1, h.2.trans rfl⟩

/-- C3 (counterexample): for the missing-static-file failure the server
answers with the generic `http.NotFound` body, not with the text of
the underlying `os.Stat` error. -/
theorem missing_file_error_text_not_returned :
    staticHandle fsEmpty "/nope.txt" = notFoundResponse ∧
    notFoundResponse.body = .text "404 page not found\n" ∧
    Body.text "404 page not found\n" ≠ .text (statErrorText "./nope.txt") := by
  refine ⟨rfl, rfl, fun h => ?_⟩
  injection h with h'
  exact absurd h' (by decide)

/-- C3 (amended): a request body that is not valid JSON and an SQL
execution error are converted directly into HTTP error statuses (400
and 500) carrying the underlying error's text; a missing static file
and an unmatched API route are converted into 404 with the fixed
generic `404 page not found` body instead. -/
theorem error_handling_uniform :
    (∀ (db : DB) (path : String) (qs : List (String × String)) (raw e : String),
      handleQuery db ⟨"POST", path, qs, .error e, raw⟩ = (errorResponse e 400, [])) ∧
    (∀ (db : DB) (j : Json) (q : QueryRequest) (path : String)
        (qs : List (String × String)) (raw e : String),
      decodeQueryRequest j = .ok q → executeQuery db q.sql q.params = .error e →
      handleQuery db ⟨"POST", path, qs, .ok j, raw⟩ = (errorResponse e 500, [(q.sql, q.params)])) ∧
    (∀ (fs : String → Bool) (path : String), path ≠ "/" → fs ("." ++ path) = false →
      staticHandle fs path = notFoundResponse) ∧
    (∀ (api : APIDescription) (db : DB) (req : Request),
      findMatchingEndpoint api req.path = none →
      handleAPI (some api) db req = (notFoundResponse, [])) := by
  refine ⟨?_, ?_, ?_, ?_⟩
  · intro db path qs raw e
    simp [handleQuery]
  · intro db j q path qs raw e hdec hexec
    simp [handleQuery, hdec, hexec]
  · intro fs path h hf
    simp [staticHandle, h, hf]
  · intro api db req hep
    simp [handleAPI, hep]

/-- Witness for C3 (amended): a failing SQL statement posted to
`/query` yields a 500 carrying the database error text, and a missing
file yields the generic 404. -/
theorem error_handling_uniform_witness :
    handleQuery dbFail ⟨"POST", "/query", [], .ok queryBody, ""⟩
      = (errorResponse "no such table: t" 500, [("SELECT a FROM t", [])]) ∧
    staticHandle fsEmpty "/missing.js" = notFoundResponse :=
  ⟨error_handling_uniform.2.1 dbFail queryBody ⟨"SELECT a FROM t", []⟩ "/query" [] ""
      "no such table: t" rfl rfl,
   error_handling_uniform.2.2.1 fsEmpty "/missing.js" (by decide) rfl⟩

/-- C4 (confirmed): the catch-all handler serves `index.html` for the
path `/`, serves `"." ++ path` for any other path whose file exists,
and answers 404 when it does not exist. -/
theorem static_file_routing (fs : String → Bool) (path : String) :
    (path = "/" → staticHandle fs path = ⟨200, [], .file "index.html"⟩) ∧
    (path ≠ "/" → fs ("." ++ path) = true →
      staticHandle fs path = ⟨200, [], .file ("." ++ path)⟩) ∧
    (path ≠ "/" → fs ("." ++ path) = false → staticHandle fs path = notFoundResponse) := by
  refine ⟨fun h => ?_, fun h hf => ?_, fun h hf => ?_⟩
  · simp [staticHandle, h]
  · simp [staticHandle, h, hf]
  · simp [staticHandle, h, hf]

/-- Witness for C4: a file system holding exactly `./app.js`. -/
theorem static_file_routing_witness :
    staticHandle (fun p => p == "./app.js") "/" = ⟨200, [], .file "index.html"⟩ ∧
    staticHandle (fun p => p == "./app.js") "/app.js" = ⟨200, [], .file "./app.js"⟩ ∧
    staticHandle (fun p => p == "./app.js") "/missing.js" = notFoundResponse :=
  ⟨(static_file_routing _ "/").1 rfl,
   (static_file_routing _ "/app.js").2.1 (by decide) (by decide),
   (static_file_routing _ "/missing.js").2.2 (by decide) rfl⟩

/-- C5 (confirmed): the pool configuration `NewServer` leaves on the
shared handle caps both the open-connection and the idle-connection
limits at 1, so the `database/sql` pool can ever hand out a single
shared connection and serializes all access through it. -/
theorem pool_single_connection :
    newServerConn.maxOpenConns = 1 ∧ newServerConn.maxIdleConns = 1 :=
  ⟨rfl, rfl⟩

/-- C9 (confirmed): every response leaving the CORS middleware — and
therefore every response of the server, which is the middleware
wrapped around the mux — carries `Access-Control-Allow-Origin: *`,
and an OPTIONS request to any path is answered with 200 and an empty
body by the middleware itself, identically for every wrapped handler
(so no route handler, including method-rejecting ones, is ever
reached). -/
theorem cors_all_responses (next : Request → Response × List SQLCall) (req : Request) :
    ("Access-Control-Allow-Origin", "*") ∈ (corsMiddleware next req).1.headers ∧
    (req.method = "OPTIONS" →
      (corsMiddleware next req).1.status = 200 ∧
      (corsMiddleware next req).1.body = .text "" ∧
      (corsMiddleware next req).2 = [] ∧
      ∀ next' : Request → Response × List SQLCall,
        corsMiddleware next req = corsMiddleware next' req) := by
  by_cases h : req.method = "OPTIONS"
  · refine ⟨?_, fun _ => ⟨?_, ?_, ?_, fun next' => ?_⟩⟩ <;> simp [corsMiddleware, h, corsHeaders]
  · exact ⟨by simp [corsMiddleware, h, corsHeaders], fun hc => absurd hc h⟩

/-- Witness for C9: a concrete OPTIONS request through the middleware
wrapping a fixed handler. -/
theorem cors_all_responses_witness :
    ("Access-Control-Allow-Origin", "*")
      ∈ (corsMiddleware next0 ⟨"OPTIONS", "/query", [], .error "EOF", ""⟩).1.headers ∧
    (corsMiddleware next0 ⟨"OPTIONS", "/query", [], .error "EOF", ""⟩).1.status = 200 :=
  have h := cors_all_responses next0 ⟨"OPTIONS", "/query", [], .error "EOF", ""⟩
  ⟨h.1, (h.2 rfl).1⟩

/-- C8 (confirmed): the binding loop of `handleAPI` resolves every
declared parameter with the fixed precedence path → query → body,
passes NULL for a name found in none of the three sources, and
rewrites the SQL text by one first-occurrence `:name` → `?`
replacement per declared parameter, in declared order. -/
theorem bind_params_precedence (declared : List String)
    (pathParams queryParams : List (String × String))
    (bodyParams : List (String × Json)) (sqlQuery : String) :
    bindParams declared pathParams queryParams bodyParams sqlQuery
      = (declared.map (resolveParam pathParams queryParams bodyParams),
         declaredOrderSQL declared sqlQuery) := by
  induction declared generalizing sqlQuery with
  | nil => rfl
  | cons n rest ih =>
    simp only [bindParams, List.map, declaredOrderSQL, List.foldl, ih]
    refine Prod.ext ?_ rfl
    cases h1 : mlookup pathParams n <;>
      cases h2 : mlookup queryParams n <;>
        cases h3 : mlookup bodyParams n <;>
          simp [resolveParam, h1, h2, h3, Option.getD]

/-- Helper for C2: the first component of `strings.SplitN(s, sep, 2)`
is the longest separator-free leading run. -/
theorem splitN2_fst (s : List Char) (sep : Char) :
    (splitN2 s sep).1 = s.takeWhile (fun c => c ≠ sep) := by
  induction s with
  | nil => rfl
  | cons c cs ih =>
    by_cases h : c = sep <;> simp [splitN2, List.takeWhile_cons, h, ih]

/-- Helper for C2: the second component of `strings.SplitN(s, sep, 2)`
is what follows the first separator, when one exists. -/
theorem splitN2_snd (s : List Char) (sep : Char) :
    (splitN2 s sep).2
      = (match s.dropWhile (fun c => c ≠ sep) with
         | [] => none
         | _ :: r => some r) := by
  induction s with
  | nil => rfl
  | cons c cs ih =>
    by_cases h : c = sep <;> simp [splitN2, List.dropWhile_cons, h, ih]

/-- Helper for C2: whatever `dropWhile (· ≠ sep)` leaves begins with
`sep`. -/
theorem dropWhile_head_false (p : Char → Bool) (s : List Char) (c : Char) (r : List Char)
    (h : s.dropWhile p = c :: r) : p c = false := by
  induction s with
  | nil => simp at h
  | cons a as ih =>
    rw [List.dropWhile_cons] at h
    by_cases ha : p a
    · rw [if_pos ha] at h
      exact ih h
    · rw [if_neg ha] at h
      cases h
      simpa using ha

/-- C2 (confirmed): for every request path of the form
`/proxy/<rest>`, the forwarded request goes to the host given by the
first segment of `<rest>`, on the remainder of the path (the root `/`
when there is no remainder), and the incoming raw query string is
forwarded unchanged. -/
theorem proxy_target_correct (rest : List Char) (q : String) :
    proxyTarget ("/proxy/".data ++ rest) q
      = (rest.takeWhile (fun c => c ≠ '/'),
         (if rest.dropWhile (fun c => c ≠ '/') = [] then ['/']
          else rest.dropWhile (fun c => c ≠ '/')),
         q) := by
  have hpre : "/proxy/".data.isPrefixOf ("/proxy/".data ++ rest) = true :=
    List.isPrefixOf_iff_prefix.mpr (List.prefix_append _ _)
  have hdrop : ("/proxy/".data ++ rest).drop "/proxy/".data.length = rest :=
    List.drop_left _ _
  simp only [proxyTarget, hpre, if_pos, hdrop]
  refine Prod.ext ?_ (Prod.ext ?_ rfl)
  · simpa using splitN2_fst rest '/'
  · rw [splitN2_snd rest '/']
    cases hd : rest.dropWhile (fun c => c ≠ '/') with
    | nil => simp
    | cons c r =>
      have hc : c = '/' := by simpa using dropWhile_head_false _ rest c r hd
      subst hc
      simp

/-- C7 (counterexample): an OPTIONS request to a path matching a
declared endpoint that does not declare OPTIONS is answered with 200
by the CORS middleware, not with 405 — the middleware short-circuits
every OPTIONS request before the method check can run. -/
theorem options_bypasses_method_check :
    findMatchingEndpoint apiA "/api/things"
      = some (⟨"/things", [("GET", ⟨"SELECT * FROM things", []⟩)]⟩, []) ∧
    mlookup [("GET", (⟨"SELECT * FROM things", []⟩ : MethodDefinition))] "OPTIONS" = none ∧
    (serverHandle (some apiA) dbEmpty fsEmpty
      ⟨"OPTIONS", "/api/things", [], .error "EOF", ""⟩).1.status = 200 ∧
    (serverHandle (some apiA) dbEmpty fsEmpty
      ⟨"OPTIONS", "/api/things", [], .error "EOF", ""⟩).2 = [] ∧
    (200 : Nat) ≠ 405 :=
  ⟨rfl, rfl, rfl, rfl, by decide⟩

/-- C7 (amended): for every request that is not an OPTIONS request,
routed by the mux to the API handler, whose path matches a declared
endpoint whose method table does not contain the request method, the
server answers 405 and submits no SQL to the database. -/
theorem method_not_allowed_405 (api : APIDescription) (db : DB) (fs : String → Bool)
    (req : Request) (ep : EndpointDefinition) (pp : List (String × String))
    (hm : req.method ≠ "OPTIONS")
    (hroute : muxRoute (some api) req.path = .api)
    (hep : findMatchingEndpoint api req.path = some (ep, pp))
    (hmd : mlookup ep.methods req.method = none) :
    (serverHandle (some api) db fs req).1.status = 405 ∧
    (serverHandle (some api) db fs req).2 = [] := by
  simp [serverHandle, corsMiddleware, hm, muxHandle, hroute, handleAPI, hep, hmd,
    errorResponse]

/-- Witness for C7 (amended): a POST to the GET-only endpoint of
`apiA` yields 405 and no SQL call. -/
theorem method_not_allowed_405_witness :
    (serverHandle (some apiA) dbEmpty fsEmpty
      ⟨"POST", "/api/things", [], .error "EOF", ""⟩).1.status = 405 ∧
    (serverHandle (some apiA) dbEmpty fsEmpty
      ⟨"POST", "/api/things", [], .error "EOF", ""⟩).2 = [] :=
  method_not_allowed_405 apiA dbEmpty fsEmpty ⟨"POST", "/api/things", [], .error "EOF", ""⟩
    ⟨"/things", [("GET", ⟨"SELECT * FROM things", []⟩)]⟩ []
    (by decide) rfl rfl rfl

/-- C10 (counterexample): on the request path `/api/things//` the
procedure the claim describes — strip the base path, remove trailing
slashes (plural) — finds the `/things` endpoint, but the code removes
only a single trailing slash (`strings.TrimSuffix(path, "/")`) and
finds nothing. -/
theorem trailing_slashes_counterexample :
    claimFindEndpoint trimAllSlashEnd apiA "/api/things//"
      = some (⟨"/things", [("GET", ⟨"SELECT * FROM things", []⟩)]⟩, []) ∧
    findMatchingEndpoint apiA "/api/things//" = none :=
  ⟨rfl, rfl⟩

/-- Helper for C10: when the first pass fails, guarding the second
pass with "the normalization changed the path" is unobservable,
because an unchanged path makes the second pass identical to the
first. -/
theorem second_pass_guard_redundant (eps : List EndpointDefinition) (normalized p : String) :
    ((match eps.find? (fun ep => reMatchStr ep.path normalized) with
      | some ep => some (ep, extractPathParamsStr normalized ep.path)
      | none =>
        if normalized ≠ p then
          match eps.find? (fun ep => reMatchStr ep.path p) with
          | some ep => some (ep, extractPathParamsStr p ep.path)
          | none => none
        else none) : Option (EndpointDefinition × List (String × String)))
      = (match eps.find? (fun ep => reMatchStr ep.path normalized) with
         | some ep => some (ep, extractPathParamsStr normalized ep.path)
         | none =>
           match eps.find? (fun ep => reMatchStr ep.path p) with
           | some ep => some (ep, extractPathParamsStr p ep.path)
           | none => none) := by
  cases hfind : eps.find? (fun ep => reMatchStr ep.path normalized) with
  | some ep => rfl
  | none =>
    by_cases h : normalized = p
    · subst h
      simp [hfind]
    · simp [h]

/-- C10 (amended): `findMatchingEndpoint` behaves exactly as the claim
describes once "removes trailing slashes" is read as removing a single
trailing slash: strip the base path (restoring `/` when empty), drop
one trailing slash (restoring `/` when that leaves nothing), try the
endpoints in declaration order against the normalized path, and only
when none matches try them, in order, against the unnormalized path. -/
theorem find_endpoint_normalization (api : APIDescription) (requestPath : String) :
    findMatchingEndpoint api requestPath = claimFindEndpoint trimSlashEnd api requestPath := by
  simp only [findMatchingEndpoint, claimFindEndpoint]
  exact second_pass_guard_redundant api.endpoints _ _

/-- Helper for C6: a string with an empty character list is the empty
string. -/
theorem str_eq_empty_of_data (s : String) (h : s.data = []) : s = "" := by
  cases s with
  | mk d =>
    have hd : d = [] := h
    subst hd
    rfl

/-- Helper for C6: a colon-free character list has no colon split. -/
theorem colonSplit_eq_none (cs : List Char) (h : cs.contains ':' = false) :
    colonSplit cs = none := by
  induction cs with
  | nil => rfl
  | cons c rest ih =>
    rw [List.contains_cons] at h
    simp only [Bool.or_eq_false_iff, beq_eq_false_iff_ne, ne_eq] at h
    have hc : ¬ c = ':' := fun hcc => h.1 hcc.symm
    simp [colonSplit, hc, ih h.2]

/-- Helper for C6: a segment that starts with a colon and has at least
one further character compiles to a bare capture group. -/
theorem compileSeg_param (s : String) (h : hasPre s ":" = true)
    (hlen : 2 ≤ s.data.length) : compileSeg s = .preGroup "" := by
  cases hsd : s.data with
  | nil =>
    rw [hasPre, hsd] at h
    simp [List.isPrefixOf] at h
  | cons c rest =>
    have hc : c = ':' := by
      rw [hasPre, hsd] at h
      simp [List.isPrefixOf] at h
      exact h.symm
    have hrest : rest ≠ [] := by
      rw [hsd] at hlen
      cases rest with
      | nil => simp at hlen
      | cons _ _ => simp
    subst hc
    simp [compileSeg, hsd, colonSplit, hrest]

/-- Helper for C6: matching the compiled pattern of a template against
the template with values substituted for its parameters captures
exactly the substituted values, in parameter order.  The hypothesis
scopes the statement to templates whose segments are whole `:name`
parameters (at least one character after the colon) or colon-free
literals; on that domain every parameter segment compiles to exactly
one bare capture group and every literal segment to itself. -/
theorem captures_subst (tsegs : List String) (σ : String → String)
    (hwf : ∀ s ∈ tsegs,
      (hasPre s ":" = true → 2 ≤ s.data.length) ∧
      (hasPre s ":" = false → s.data.contains ':' = false))
    (hσ : ∀ n ∈ paramNames tsegs, σ n ≠ "" ∧ (σ n).data.contains '/' = false) :
    capturesAux (pathToRegexp tsegs) (substTemplate tsegs σ)
      = some ((paramNames tsegs).map σ) := by
  induction tsegs with
  | nil => rfl
  | cons s ts ih =>
    have hwf' : ∀ x ∈ ts,
        (hasPre x ":" = true → 2 ≤ x.data.length) ∧
        (hasPre x ":" = false → x.data.contains ':' = false) :=
      fun x hx => hwf x (List.mem_cons_of_mem s hx)
    by_cases h : hasPre s ":" = true
    · have hlen := (hwf s (List.mem_cons_self s ts)).1 h
      have hnames : paramNames (s :: ts) = (⟨s.data.drop 1⟩ : String) :: paramNames ts := by
        simp [paramNames, h]
      have hσ' : ∀ n ∈ paramNames ts, σ n ≠ "" ∧ (σ n).data.contains '/' = false :=
        fun n hn => hσ n (by rw [hnames]; exact List.mem_cons_of_mem _ hn)
      have hhead := hσ (⟨s.data.drop 1⟩ : String) (by rw [hnames]; exact List.mem_cons_self _ _)
      have hh2 : ¬ (σ (⟨s.data.drop 1⟩ : String)).data.contains '/' = true := by
        rw [hhead.2]
        exact Bool.false_ne_true
      have hgroup : compileSeg s = .preGroup "" := compileSeg_param s h hlen
      have hpre0 : (("" : String).data.isPrefixOf (σ (⟨s.data.drop 1⟩ : String)).data) = true :=
        List.isPrefixOf_nil_left
      have hlt : ("" : String).data.length < (σ (⟨s.data.drop 1⟩ : String)).data.length := by
        have hd : (σ (⟨s.data.drop 1⟩ : String)).data ≠ [] :=
          fun hdd => hhead.1 (str_eq_empty_of_data _ hdd)
        exact List.length_pos.mpr hd
      have htail := ih hwf' hσ'
      simp only [pathToRegexp, List.map_cons, substTemplate] at htail ⊢
      rw [hgroup, if_pos h, hnames, List.map_cons, capturesAux,
        if_pos ⟨hpre0, hlt, hh2⟩, htail]
      rfl
    · have hf : hasPre s ":" = false := Bool.eq_false_iff.mpr h
      have hcf := (hwf s (List.mem_cons_self s ts)).2 hf
      have hnames : paramNames (s :: ts) = paramNames ts := by
        simp [paramNames, h]
      have hσ' : ∀ n ∈ paramNames ts, σ n ≠ "" ∧ (σ n).data.contains '/' = false :=
        fun n hn => hσ n (hnames ▸ hn)
      have hlit : compileSeg s = .lit s := by
        simp [compileSeg, colonSplit_eq_none s.data hcf]
      have htail := ih hwf' hσ'
      simp only [pathToRegexp, List.map_cons, substTemplate] at htail ⊢
      rw [hlit, if_neg h, hnames, capturesAux, if_pos rfl, htail]

/-- Helper for C6: zipping a list with its own image is the graph of
the function. -/
theorem zip_self_map (l : List String) (f : String → String) :
    l.zip (l.map f) = l.map (fun a => (a, f a)) := by
  induction l with
  | nil => rfl
  | cons a t ih => simp [ih]

/-- C6 (counterexample): the round trip fails on a template with a
mid-segment colon.  For `/a:b/:id` — whose only `:name` parameter is
`id` — and the assignment that maps `id` to the non-empty slash-free
value `v`, `pathToRegexp` turns the mid-segment colon of `a:b` into a
capture group (`a([^/]+)`), so the compiled pattern has two groups but
`extractPathParams` knows a single name: on the substituted path
`/a:b/v` the first capture is `:b`, and `id` is bound to `:b`, not to
`v`. -/
theorem midsegment_colon_breaks_roundtrip :
    paramNames ["", "a:b", ":id"] = ["id"] ∧
    substTemplate ["", "a:b", ":id"] (fun _ => "v") = ["", "a:b", "v"] ∧
    (("v" : String) ≠ "" ∧ ("v" : String).data.contains '/' = false) ∧
    extractPathParams (substTemplate ["", "a:b", ":id"] (fun _ => "v")) ["", "a:b", ":id"]
      = [("id", ":b")] ∧
    [(("id" : String), (":b" : String))] ≠ [("id", "v")] := by
  refine ⟨by decide, by decide, by decide, by decide, by decide⟩

/-- C6 (amended): for every path template whose segments are either
`:name` parameters (a colon followed by at least one character) or
colon-free literals, and every assignment of non-empty slash-free
values to its parameter names, substituting the values into the
template and then matching the result against the template's compiled
regular expression and extracting parameters returns exactly the
original assignment, one binding per parameter occurrence in template
order.  The restriction to colon-free literal segments is forced by
the counterexample above: a mid-segment colon creates a capture group
with no corresponding parameter name, misaligning the extraction.
Paths are represented by their `/`-split segment lists (see the note
at `pathToRegexp`). -/
theorem path_params_roundtrip (tsegs : List String) (σ : String → String)
    (hwf : ∀ s ∈ tsegs,
      (hasPre s ":" = true → 2 ≤ s.data.length) ∧
      (hasPre s ":" = false → s.data.contains ':' = false))
    (hσ : ∀ n ∈ paramNames tsegs, σ n ≠ "" ∧ (σ n).data.contains '/' = false) :
    extractPathParams (substTemplate tsegs σ) tsegs
      = (paramNames tsegs).map (fun n => (n, σ n)) := by
  have hc := captures_subst tsegs σ hwf hσ
  simp only [extractPathParams, hc]
  exact zip_self_map _ _

/-- Witness for C6: the template `/clients/:id` with the value `123`
assigned to `id` round-trips. -/
theorem path_params_roundtrip_witness :
    extractPathParams (substTemplate ["", "clients", ":id"] (fun _ => "123"))
      ["", "clients", ":id"] = [("id", "123")] := by
  have h := path_params_roundtrip ["", "clients", ":id"] (fun _ => "123")
    (by decide) (by decide)
  exact h.trans (by decide)

end SqliteServer
